import Mathlib

/-!
# Verification of the `golf` mini-golf game sources

A shallow embedding of `src/collision.rs` and `src/main.rs`.

Numeric values (Rust `f32`) are modelled by an arbitrary linear ordered
field `α`; the theorems about the running program instantiate `α := ℝ`.
The transcendental operations of the float library (`PI`, `sqrt`, `sin`,
`cos`) are collected in a `FloatOps` record; the real interpretation used
in theorem statements is `⟨Real.pi, Real.sqrt, Real.sin, Real.cos⟩`.
Rust's `%` on floats (remainder, truncated towards zero) is modelled by
`rustRem`, which is definable from the floor/ceiling structure.

Fallible code — the `unwrap`ed asset lookups of
`create_collider_from_gltf_node` and `load_level` — is modelled by
`Option`-returning functions: a `none` result corresponds to a panic of
the Rust code.
-/

set_option autoImplicit false

namespace Golf

variable {α : Type} [LinearOrderedField α]

/-- The transcendental float operations used by the game
(`std::f32::consts::PI`, `f32::sqrt` via `Vec3::length`, and the
`sin`/`cos` hidden inside `Quat::from_rotation_*` / `Quat::from_euler`). -/
structure FloatOps (α : Type) where
  pi : α
  sqrt : α → α
  sin : α → α
  cos : α → α

/-- `glam::Vec3`. -/
structure Vec3 (α : Type) where
  x : α
  y : α
  z : α
  deriving DecidableEq, Repr

namespace Vec3

/-- Componentwise addition (`Vec3 + Vec3`). -/
def add (a b : Vec3 α) : Vec3 α := ⟨a.x + b.x, a.y + b.y, a.z + b.z⟩

instance : Add (Vec3 α) := ⟨Vec3.add⟩

/-- Componentwise multiplication (`Vec3 * Vec3`, used by `scaled` and
`Transform` scale composition). -/
def cmul (a b : Vec3 α) : Vec3 α := ⟨a.x * b.x, a.y * b.y, a.z * b.z⟩

/-- Componentwise division (`Vec3 / Vec3`, used by `tr.translation /= tr.scale`). -/
def cdiv (a b : Vec3 α) : Vec3 α := ⟨a.x / b.x, a.y / b.y, a.z / b.z⟩

/-- Scalar multiplication (`Vec3 * f32`). -/
def smul (k : α) (v : Vec3 α) : Vec3 α := ⟨k * v.x, k * v.y, k * v.z⟩

/-- Cross product. -/
def cross (a b : Vec3 α) : Vec3 α :=
  ⟨a.y * b.z - a.z * b.y, a.z * b.x - a.x * b.z, a.x * b.y - a.y * b.x⟩

/-- `Vec3::ZERO`. -/
def zero : Vec3 α := ⟨0, 0, 0⟩

/-- `Vec3::ONE`. -/
def one : Vec3 α := ⟨1, 1, 1⟩

/-- `Vec3::length`: the euclidean norm, via the `sqrt` of the float library. -/
def length (ops : FloatOps α) (v : Vec3 α) : α :=
  ops.sqrt (v.x * v.x + v.y * v.y + v.z * v.z)

end Vec3

/-- `glam::Quat` (also covering the nalgebra `UnitQuaternion` the rotation is
converted into inside `transform_vertices`). -/
structure Quat (α : Type) where
  x : α
  y : α
  z : α
  w : α
  deriving DecidableEq, Repr

namespace Quat

/-- The vector part of a quaternion. -/
def xyz (q : Quat α) : Vec3 α := ⟨q.x, q.y, q.z⟩

/-- `Quat::IDENTITY`. -/
def id : Quat α := ⟨0, 0, 0, 1⟩

/-- Rotation of a vector by a (unit) quaternion, the
`t = 2 (q.xyz × v); v + w t + q.xyz × t` form used by nalgebra's
`UnitQuaternion::transform_vector` and equivalent to glam's `Quat * Vec3`
for unit quaternions. -/
def mulVec3 (q : Quat α) (v : Vec3 α) : Vec3 α :=
  let t := Vec3.smul 2 (Vec3.cross q.xyz v)
  v + Vec3.smul q.w t + Vec3.cross q.xyz t

/-- The Hamilton product (`Quat * Quat`). -/
def mul (a b : Quat α) : Quat α :=
  ⟨a.w * b.x + a.x * b.w + a.y * b.z - a.z * b.y,
   a.w * b.y - a.x * b.z + a.y * b.w + a.z * b.x,
   a.w * b.z + a.x * b.y - a.y * b.x + a.z * b.w,
   a.w * b.w - a.x * b.x - a.y * b.y - a.z * b.z⟩

/-- `Quat::from_rotation_x(angle)`. -/
def fromRotX (ops : FloatOps α) (angle : α) : Quat α :=
  ⟨ops.sin (angle / 2), 0, 0, ops.cos (angle / 2)⟩

/-- `Quat::from_rotation_y(angle)`. -/
def fromRotY (ops : FloatOps α) (angle : α) : Quat α :=
  ⟨0, ops.sin (angle / 2), 0, ops.cos (angle / 2)⟩

/-- `Quat::from_rotation_z(angle)`. -/
def fromRotZ (ops : FloatOps α) (angle : α) : Quat α :=
  ⟨0, 0, ops.sin (angle / 2), ops.cos (angle / 2)⟩

/-- `Quat::from_euler(EulerRot::XYZ, a, b, c)`: the composition of the three
axis rotations. -/
def fromEulerXYZ (ops : FloatOps α) (a b c : α) : Quat α :=
  Quat.mul (fromRotX ops a) (Quat.mul (fromRotY ops b) (fromRotZ ops c))

end Quat

/-- `bevy::Transform`: a translation/rotation/scale triple. -/
structure Transform (α : Type) where
  translation : Vec3 α
  rotation : Quat α
  scale : Vec3 α
  deriving DecidableEq, Repr

namespace Transform

/-- `Transform::IDENTITY`. -/
def IDENTITY : Transform α := ⟨Vec3.zero, Quat.id, Vec3.one⟩

/-- `Transform::from_xyz(x, y, z)`. -/
def fromXYZ (x y z : α) : Transform α := ⟨⟨x, y, z⟩, Quat.id, Vec3.one⟩

/-- `Transform::from_rotation(rot)`. -/
def fromRotation (q : Quat α) : Transform α := ⟨Vec3.zero, q, Vec3.one⟩

/-- `Transform::from_translation(t)`. -/
def fromTranslation (t : Vec3 α) : Transform α := ⟨t, Quat.id, Vec3.one⟩

/-- `Transform::with_rotation`. -/
def withRotation (t : Transform α) (q : Quat α) : Transform α := { t with rotation := q }

/-- `Transform::with_translation`. -/
def withTranslation (t : Transform α) (v : Vec3 α) : Transform α := { t with translation := v }

/-- `Transform::with_scale`. -/
def withScale (t : Transform α) (v : Vec3 α) : Transform α := { t with scale := v }

/-- `Transform::transform_point`: `translation + rotation * (scale * p)`. -/
def transformPoint (t : Transform α) (p : Vec3 α) : Vec3 α :=
  t.translation + Quat.mulVec3 t.rotation (Vec3.cmul p t.scale)

/-- `Transform * Transform` (bevy's `mul_transform`). -/
def mulT (a b : Transform α) : Transform α :=
  ⟨a.transformPoint b.translation, Quat.mul a.rotation b.rotation, Vec3.cmul a.scale b.scale⟩

end Transform

/-! ## Rust float remainder

Rust's `%` on floats returns `a - b * trunc(a / b)`; `trunc` rounds
towards zero. -/

/-- Truncation towards zero. -/
def rtrunc [FloorRing α] (x : α) : α :=
  if 0 ≤ x then (⌊x⌋ : ℤ) else (⌈x⌉ : ℤ)

/-- Rust's `%` on floats: `a - b * trunc(a / b)`. -/
def rustRem [FloorRing α] (a b : α) : α :=
  a - b * rtrunc (a / b)

/-! ## Assets and the collider construction (`src/collision.rs`)

Asset stores (`Assets<GltfMesh>`, `Assets<Mesh>`, `Assets<GltfNode>`) are
modelled as partial lookup functions; handles are natural numbers (or the
asset path string for the `AssetServer` lookups of `load_level`). A bevy
`Mesh` is represented by what the collision code extracts from it: the
vertex list of its triangle-mesh collider when
`Collider::from_bevy_mesh(_, TriMesh)` succeeds, `none` when that
conversion fails. -/

/-- One primitive of a `GltfMesh`: a `Mesh` handle and an optional
material handle. -/
structure GltfPrimitive where
  mesh : ℕ
  material : Option ℕ
  deriving DecidableEq, Repr

/-- `bevy::gltf::GltfMesh`: a list of primitives. -/
structure GltfMeshA where
  primitives : List GltfPrimitive
  deriving DecidableEq, Repr

/-- `bevy::Mesh`, seen through `Collider::from_bevy_mesh(_, TriMesh)`:
`trimesh` is the vertex list of the resulting triangle-mesh collider,
or `none` when the conversion fails. -/
structure MeshA (α : Type) where
  trimesh : Option (List (Vec3 α))
  deriving DecidableEq, Repr

/-- `bevy::gltf::GltfNode`: an optional `GltfMesh` handle and a transform. -/
structure GltfNode (α : Type) where
  mesh : Option ℕ
  transform : Transform α
  deriving DecidableEq, Repr

/-- `create_collider_from_gltf_node` of `src/collision.rs`. The resulting
collider is represented by its vertex list; `none` models a panic of one of
the `unwrap`s (missing node mesh, missing `GltfMesh` asset, empty
`primitives` for the `primitives[0]` index, missing `Mesh` asset, or a
failing triangle-mesh conversion). The vertex pipeline is the source's:
divide the translation by the scale componentwise, apply the
rotation-translation isometry, apply `scaled`, then apply the identity
isometry. -/
def create_collider_from_gltf_node (node : GltfNode α)
    (gltf_meshes : ℕ → Option GltfMeshA) (meshes : ℕ → Option (MeshA α))
    (ignore_transform : Bool) : Option (List (Vec3 α)) :=
  match node.mesh with
  | none => none
  | some meshHandle =>
    match gltf_meshes meshHandle with
    | none => none
    | some gltf_mesh =>
      match gltf_mesh.primitives with
      | [] => none
      | prim :: _ =>
        match meshes prim.mesh with
        | none => none
        | some lane_mesh =>
          match lane_mesh.trimesh with
          | none => none
          | some verts =>
            let tr := if ignore_transform then Transform.IDENTITY else node.transform
            let tr := { tr with translation := Vec3.cdiv tr.translation tr.scale }
            let verts := verts.map (fun v => Quat.mulVec3 tr.rotation v + tr.translation)
            let verts := verts.map (fun v => Vec3.cmul v tr.scale)
            let verts := verts.map (fun v => Quat.mulVec3 Quat.id v + Vec3.zero)
            some verts

/-- The vertex transformation the specification sentence for the collider
describes: the standard TRS composition
`translation + rotation * (scale * v)`. Stated from the spec's words, for
comparison with `create_collider_from_gltf_node`. -/
def claimedTRSVertex (t : Transform α) (v : Vec3 α) : Vec3 α :=
  t.translation + Quat.mulVec3 t.rotation (Vec3.cmul v t.scale)

/-- The vertex transformation the collider code actually performs:
`translation + scale * (rotation * v)`, the scale applied componentwise
after the rotation. -/
def actualColliderVertex (t : Transform α) (v : Vec3 α) : Vec3 α :=
  Vec3.cmul (Quat.mulVec3 t.rotation v) t.scale + t.translation

/-! ## Procedural lane configuration (`LaneConfig`, `src/main.rs`) -/

/-- The wall directions. -/
inductive Direction : Type where
  | Up
  | Left
  | Down
  | Right
  deriving DecidableEq, Repr

/-- The lane tile kinds. -/
inductive LanePart : Type where
  | BasicFloor
  | HoleFloor
  | Wall (dir : Direction)
  deriving DecidableEq, Repr

/-- A `LaneConfig` entry: a grid position and a part. -/
abbrev Tile : Type := (ℤ × ℤ) × LanePart

/-- `LaneConfig::with` (`with` is a Lean keyword, hence the name). -/
def LaneConfig.withTiles (self : List Tile) (tiles : List Tile) : List Tile :=
  self ++ tiles

/-- `LaneConfig::with_3x3`: push the nine cells around `(cx, cy)`,
`center` at the middle and `around` elsewhere, in the source's
`dx`-outer / `dy`-inner order. -/
def LaneConfig.with3x3 (self : List Tile) (cx cy : ℤ) (around center : LanePart) : List Tile :=
  self ++ ([-1, 0, 1].flatMap fun dx => [-1, 0, 1].map fun dy =>
    ((cx + dx, cy + dy), if dx = 0 ∧ dy = 0 then center else around))

/-- The floor-tile test of `with_walls_around`'s `grass` filter:
`*part == LanePart::BasicFloor || *part == LanePart::HoleFloor`. -/
def LanePart.isFloor : LanePart → Bool
  | LanePart.BasicFloor => true
  | LanePart.HoleFloor => true
  | _ => false

/-- The `grass` set of `with_walls_around`: the positions of the floor
tiles, collected into a `HashSet` (modelled as a deduplicated list). -/
def grassOf (self : List Tile) : List (ℤ × ℤ) :=
  ((self.filter fun t => t.2.isFloor).map Prod.fst).dedup

/-- The walls pushed by one iteration of `with_walls_around`'s loop for
the grass cell `p`: one wall per direction whose neighbouring cell is not
in the grass set, in the source's Right, Left, Up, Down order. -/
def wallSegment (grass : List (ℤ × ℤ)) (p : ℤ × ℤ) : List ((ℤ × ℤ) × Direction) :=
  (if !grass.contains (p.1 + 1, p.2) then [(p, Direction.Right)] else []) ++
  (if !grass.contains (p.1 - 1, p.2) then [(p, Direction.Left)] else []) ++
  (if !grass.contains (p.1, p.2 + 1) then [(p, Direction.Up)] else []) ++
  (if !grass.contains (p.1, p.2 - 1) then [(p, Direction.Down)] else [])

/-- The wall list built by `with_walls_around`: the walls of every grass
cell. -/
def wallsOf (grass : List (ℤ × ℤ)) : List ((ℤ × ℤ) × Direction) :=
  grass.flatMap (wallSegment grass)

/-- `LaneConfig::with_walls_around`: append a `Wall` tile for every wall
computed from the grass set. -/
def LaneConfig.withWallsAround (self : List Tile) : List Tile :=
  self ++ (wallsOf (grassOf self)).map (fun w => (w.1, LanePart.Wall w.2))

/-- `Lanes::default().level1`: the chained construction of level 1. -/
def Lanes.level1 : List Tile :=
  LaneConfig.withWallsAround
    (LaneConfig.with3x3
      (LaneConfig.with3x3
        (LaneConfig.with3x3
          (LaneConfig.with3x3
            (LaneConfig.with3x3
              (LaneConfig.with3x3
                (LaneConfig.with3x3 [] 0 0 LanePart.BasicFloor LanePart.BasicFloor)
                0 3 LanePart.BasicFloor LanePart.BasicFloor)
              0 6 LanePart.BasicFloor LanePart.BasicFloor)
            0 9 LanePart.BasicFloor LanePart.BasicFloor)
          3 9 LanePart.BasicFloor LanePart.BasicFloor)
        6 9 LanePart.BasicFloor LanePart.BasicFloor)
      6 12 LanePart.BasicFloor LanePart.HoleFloor)

/-- Whether `self` contains a floor tile at position `p` (the condition
characterising membership in the `grass` set). -/
def hasFloorAt (self : List Tile) (p : ℤ × ℤ) : Bool :=
  self.any fun t => t.1 = p ∧ t.2.isFloor

/-- The cell adjacent to `p` in direction `d`, as probed by
`with_walls_around` (`Right` probes `x+1`, `Up` probes `y+1`, …). -/
def adjacentCell (p : ℤ × ℤ) : Direction → ℤ × ℤ
  | Direction.Right => (p.1 + 1, p.2)
  | Direction.Left => (p.1 - 1, p.2)
  | Direction.Up => (p.1, p.2 + 1)
  | Direction.Down => (p.1, p.2 - 1)

/-! ## Asset loading (`load_assets`) -/

/-- The five scene asset paths requested by `load_assets`. -/
def scenePaths : List String :=
  ["models/lane.gltf#Scene0",
   "models/sphere.gltf#Scene0",
   "models/cube.gltf#Scene0",
   "models/cone.gltf#Scene0",
   "models/biggus_dickus.gltf#Scene0"]

/-- `load_assets`: for each path in `scenePaths`, load the scene and push
its untyped handle into the `AssetsLoading` resource. The `AssetServer` is
modelled by the handle-producing function `load`; `loading` is the vector
inside `AssetsLoading`. -/
def load_assets {H : Type} (load : String → H) (loading : List H) : List H :=
  scenePaths.foldl (fun acc path => acc ++ [load path]) loading

/-! ## Game state (`GameState`, `PlayerData`) -/

/-- `PlayerData`: the list of finished-hole scores of one player. -/
structure PlayerData where
  scores : List ℕ
  deriving DecidableEq, Repr

/-- `GameState`. `u32` values are modelled by `ℕ`; the only arithmetic
performed on them (`+ 1` under `current_player < num_players ≤ 2^32 - 1`,
and `% num_players`) cannot overflow a `u32`. -/
structure GameState where
  num_players : ℕ
  current_player : ℕ
  players : List PlayerData
  deriving DecidableEq, Repr

/-- `GameState::new(num_players)`. -/
def GameState.new (num_players : ℕ) : GameState :=
  { num_players := num_players
    current_player := 0
    players := List.replicate num_players ⟨[]⟩ }

/-! ## Win-condition detection (`check_ball_in_hole`) -/

/-- The data of one ball entity as read by `check_ball_in_hole`:
the entity id, the `Ball` component and the `Velocity` component. -/
structure BallEntity (α : Type) where
  id : ℕ
  player_id : ℕ
  hits : ℕ
  linvel : Vec3 α
  angvel : Vec3 α
  deriving DecidableEq, Repr

/-- Replace the element at index `i` by `f` of it (Rust's `v[i] = …` on a
valid index; out of range the list is returned unchanged, a case the game
never reaches because every `player_id` indexes into `players`). -/
def modifyAt {β : Type} (l : List β) (i : ℕ) (f : β → β) : List β :=
  match l, i with
  | [], _ => []
  | b :: rest, 0 => f b :: rest
  | b :: rest, Nat.succ j => b :: modifyAt rest j f

/-- The world state affected by `check_ball_in_hole`: the `GameState`
resource, the ids of the balls despawned through `Commands`, and whether
the `"Level 1 completed!"` message was printed. -/
structure HoleCheckState where
  gs : GameState
  despawned : List ℕ
  completed : Bool
  deriving DecidableEq, Repr

/-- The body of `check_ball_in_hole`'s double loop for one hole entity and
one ball entity. `intersect` is rapier's
`RapierContext::intersection_pair` oracle. When the ball is slower than
`0.01` and intersects the hole sensor: push the ball's hit count onto its
player's scores, despawn the ball, advance `current_player` by one modulo
`num_players`, and print the completion message exactly when every
player's score list has length 1. -/
def ballInHoleStep (ops : FloatOps α) (intersect : ℕ → ℕ → Option Bool)
    (hole : ℕ) (ball : BallEntity α) (st : HoleCheckState) : HoleCheckState :=
  if Vec3.length ops ball.linvel < 0.01 ∧ intersect hole ball.id = some true then
    let players := modifyAt st.gs.players ball.player_id
      (fun p => { p with scores := p.scores ++ [ball.hits] })
    { gs :=
        { num_players := st.gs.num_players
          current_player := (st.gs.current_player + 1) % st.gs.num_players
          players := players }
      despawned := st.despawned ++ [ball.id]
      completed := players.all fun p => p.scores.length == 1 }
  else
    st

/-- `check_ball_in_hole`: the double loop over the hole sensors and the
balls. -/
def check_ball_in_hole (ops : FloatOps α) (intersect : ℕ → ℕ → Option Bool)
    (holes : List ℕ) (balls : List (BallEntity α)) (st : HoleCheckState) : HoleCheckState :=
  holes.foldl (fun s hole => balls.foldl (fun s2 ball => ballInHoleStep ops intersect hole ball s2) s) st

/-! ## Shooting input (`keyboard_input`, `ShootSettings`) -/

/-- `BallSpin`. -/
inductive BallSpin : Type where
  | Left
  | Right
  deriving DecidableEq, Repr

/-- `ShootSettings`: the aim state of one ball. -/
structure ShootSettings (α : Type) where
  power : α
  angle : α
  spin : Option BallSpin
  deriving DecidableEq, Repr

/-- `ShootSettings::default()`: zero power, zero angle, no spin. -/
def ShootSettings.default : ShootSettings α := ⟨0, 0, none⟩

/-- The keyboard state read by `keyboard_input`: `w`, `s`, `a`, `d` via
`Input::pressed`; `q`, `e`, `escape`, `space` via `Input::just_pressed`. -/
structure Keys where
  w : Bool
  s : Bool
  a : Bool
  d : Bool
  q : Bool
  e : Bool
  escape : Bool
  space : Bool
  deriving DecidableEq, Repr

/-- The components of one ball entity as queried by `keyboard_input`:
`ExternalImpulse`, `ReadMassProperties` (only the mass is read),
`Velocity`, `ShootSettings` and `Ball`. -/
structure BallControl (α : Type) where
  player_id : ℕ
  hits : ℕ
  mass : α
  linvel : Vec3 α
  impulse : Vec3 α
  torque_impulse : Vec3 α
  shoot : ShootSettings α
  deriving DecidableEq, Repr

/-- The aim-adjustment block of `keyboard_input`, executed while the ball
is nearly at rest: `W`/`S` adjust the power by `±0.1`, `A`/`D` the angle
by `±0.5°`, `Q`/`E` toggle the spin, `Escape` resets the settings; then
the power is clamped to `[0, 10]` and the angle is reduced modulo `2π`
with a correction for negative remainders. -/
def adjustShoot [FloorRing α] [DecidableEq α] (ops : FloatOps α)
    (keys : Keys) (shoot0 : ShootSettings α) : ShootSettings α :=
  let maxPower : α := 10
  let powerSpeed : α := 0.1
  let angleSpeed : α := 0.5 / 180 * ops.pi
  let shoot := shoot0
  let shoot := if keys.w then { shoot with power := shoot.power + powerSpeed } else shoot
  let shoot := if keys.s then { shoot with power := shoot.power - powerSpeed } else shoot
  let shoot := if keys.a then { shoot with angle := shoot.angle + angleSpeed } else shoot
  let shoot := if keys.d then { shoot with angle := shoot.angle - angleSpeed } else shoot
  let shoot :=
    if keys.q then
      { shoot with spin := if shoot.spin = some BallSpin.Left then none else some BallSpin.Left }
    else shoot
  let shoot :=
    if keys.e then
      { shoot with spin := if shoot.spin = some BallSpin.Right then none else some BallSpin.Right }
    else shoot
  let shoot := if keys.escape then ShootSettings.default else shoot
  let shoot := { shoot with power := min (max shoot.power 0) maxPower }
  let shoot := { shoot with angle := rustRem shoot.angle (2 * ops.pi) }
  if shoot.angle < 0 then { shoot with angle := shoot.angle + 2 * ops.pi } else shoot

/-- The body of `keyboard_input` for the found current-player ball.

While the ball is nearly at rest (`linvel.length() < 0.01`), the shoot
settings are adjusted with `adjustShoot`. On `Space`: if the ball is
nearly at rest and the settings differ from the default, fire the shot
(impulse along the aimed direction, spin torque on the x and y axes,
increment the hit count, reset the settings); otherwise, if the vertical
speed is at most `0.05`, jump with an upward impulse of `7 *` mass. -/
def keyboardUpdateBall [FloorRing α] [DecidableEq α] (ops : FloatOps α)
    (keys : Keys) (b0 : BallControl α) : BallControl α :=
  let b :=
    if Vec3.length ops b0.linvel < 0.01 then
      { b0 with shoot := adjustShoot ops keys b0.shoot }
    else b0
  if keys.space then
    if Vec3.length ops b.linvel < 0.01 ∧ b.shoot ≠ ShootSettings.default then
      let rot := Quat.fromEulerXYZ ops 0 b.shoot.angle 0
      let dir := Transform.transformPoint (Transform.fromRotation rot) ⟨1, 0, 0⟩
      let power_multiplier := 1 * b.mass
      let shot := Vec3.smul power_multiplier (Vec3.smul b.shoot.power dir)
      let impulse : Vec3 α :=
        ⟨b.impulse.x + shot.x, b.impulse.y + shot.y, b.impulse.z + shot.z⟩
      let torqe_magnitude := 1 * b.mass
      let torque_amount : α :=
        match b.shoot.spin with
        | some BallSpin.Left => -torqe_magnitude
        | some BallSpin.Right => torqe_magnitude
        | none => 0
      let torque_impulse : Vec3 α :=
        ⟨b.torque_impulse.x + torque_amount, b.torque_impulse.y + torque_amount, b.torque_impulse.z⟩
      { b with
        impulse := impulse
        torque_impulse := torque_impulse
        hits := b.hits + 1
        shoot := ShootSettings.default }
    else if |b.linvel.y| ≤ 0.05 then
      { b with impulse := ⟨b.impulse.x, b.impulse.y + 7 * b.mass, b.impulse.z⟩ }
    else b
  else b

/-- `keyboard_input`: find the first ball whose `player_id` is the
current player and update it with `keyboardUpdateBall`; every other ball
is untouched. -/
def keyboard_input [FloorRing α] [DecidableEq α] (ops : FloatOps α)
    (keys : Keys) (current : ℕ) : List (BallControl α) → List (BallControl α)
  | [] => []
  | b :: rest =>
    if b.player_id = current then keyboardUpdateBall ops keys b :: rest
    else b :: keyboard_input ops keys current rest

/-! ## Level loading (`load_level`)

The model covers the asset-dependent part of `load_level`: the three
`GltfNode` lookups for the lane models and the loop spawning one tile
bundle per `LaneConfig` entry (plus the hole sensor for `HoleFloor`
tiles). The remaining spawns of the system — the ground cuboid collider,
the randomly shaped balls and the shoot-power indicator — perform no
fallible asset lookup and are independent of the claims about this
system. A `none` result models a panic of one of the `unwrap`s. -/

/-- `LaneModels`: the three lane `GltfNode`s. -/
structure LaneModels (α : Type) where
  basic_floor : GltfNode α
  hole_floor : GltfNode α
  wall : GltfNode α

/-- What `load_level` spawns for one lane tile: the render mesh handle and
material of `primitives[0]`, the composed render transform, and the
child collider. -/
structure TileSpawn (α : Type) where
  meshHandle : ℕ
  materialHandle : ℕ
  transform : Transform α
  colliderVerts : List (Vec3 α)
  deriving DecidableEq, Repr

/-- The lane model node used for a part. -/
def LaneModels.nodeFor (models : LaneModels α) : LanePart → GltfNode α
  | LanePart.BasicFloor => models.basic_floor
  | LanePart.HoleFloor => models.hole_floor
  | LanePart.Wall _ => models.wall

/-- The `extra_transform` of `load_level` for a part. -/
def extraTransform (ops : FloatOps α) : LanePart → Transform α
  | LanePart.BasicFloor => Transform.mulT Transform.IDENTITY (Transform.fromXYZ 0 0.025 0)
  | LanePart.HoleFloor => Transform.mulT Transform.IDENTITY (Transform.fromXYZ 0 0.025 0)
  | LanePart.Wall dir =>
    let rot_transform :=
      match dir with
      | Direction.Up => Transform.IDENTITY
      | Direction.Left => Transform.fromRotation (Quat.fromRotY ops (-(ops.pi / 2)))
      | Direction.Down => Transform.fromRotation (Quat.fromRotY ops ops.pi)
      | Direction.Right => Transform.fromRotation (Quat.fromRotY ops (ops.pi / 2))
    Transform.mulT rot_transform (Transform.fromXYZ 0.2 0.05 0)

/-- The body of `load_level`'s tile loop for one `LaneConfig` entry:
unwrap the node's mesh and `GltfMesh`, build the collider (ignoring the
node transform), and spawn the bundle whose material is the `unwrap`ed
material of `primitives[0]`. -/
def spawnTile (ops : FloatOps α) (gltf_meshes : ℕ → Option GltfMeshA)
    (meshes : ℕ → Option (MeshA α)) (models : LaneModels α) (tile : Tile) :
    Option (TileSpawn α) :=
  let node := models.nodeFor tile.2
  match node.mesh with
  | none => none
  | some meshHandle =>
    match gltf_meshes meshHandle with
    | none => none
    | some gltf_mesh =>
      match create_collider_from_gltf_node node gltf_meshes meshes true with
      | none => none
      | some verts =>
        match gltf_mesh.primitives with
        | [] => none
        | prim :: _ =>
          match prim.material with
          | none => none
          | some materialHandle =>
            some
              { meshHandle := prim.mesh
                materialHandle := materialHandle
                transform :=
                  Transform.mulT
                    (Transform.mulT
                      (Transform.withRotation
                        (Transform.fromXYZ ((tile.1.1 : α) * 0.4) 0.3 ((tile.1.2 : α) * 0.4))
                        (Quat.fromRotY ops (-(ops.pi / 2))))
                      (extraTransform ops tile.2))
                    (Transform.withTranslation node.transform Vec3.zero)
                colliderVerts := verts }

/-- `Option`-valued effectful map over a list, stopping at the first
`none` (the shape of `load_level`'s tile loop, where any panic aborts the
whole system). -/
def optionMapM {β γ : Type} (f : β → Option γ) : List β → Option (List γ)
  | [] => some []
  | x :: xs =>
    match f x with
    | none => none
    | some y =>
      match optionMapM f xs with
      | none => none
      | some ys => some (y :: ys)

/-- The hole sensor positions spawned by `load_level`: one cylinder sensor
per `HoleFloor` tile. -/
def holeSensors (lanes : List Tile) : List (Vec3 α) :=
  lanes.filterMap fun tile =>
    if tile.2 = LanePart.HoleFloor then
      some ⟨(tile.1.1 : α) * 0.4, 0.3 - 0.025 + 0.03, (tile.1.2 : α) * 0.4⟩
    else none

/-- The asset-dependent part of `load_level`: unwrap the three lane model
nodes from the `Assets<GltfNode>` store, then spawn every tile of the
level's `LaneConfig` (and the hole sensors). -/
def load_level (ops : FloatOps α) (asset_nodes : String → Option (GltfNode α))
    (gltf_meshes : ℕ → Option GltfMeshA) (meshes : ℕ → Option (MeshA α))
    (lanes : List Tile) : Option (List (TileSpawn α) × List (Vec3 α)) :=
  match asset_nodes "models/lane.gltf#Node0" with
  | none => none
  | some basic_floor =>
    match asset_nodes "models/lane.gltf#Node2" with
    | none => none
    | some hole_floor =>
      match asset_nodes "models/lane.gltf#Node1" with
      | none => none
      | some wall =>
        match optionMapM (spawnTile ops gltf_meshes meshes ⟨basic_floor, hole_floor, wall⟩) lanes with
        | none => none
        | some tiles => some (tiles, holeSensors lanes)

/-! ## Basic lemmas about the vector algebra -/

@[simp] theorem Vec3.add_def (a b : Vec3 α) :
    a + b = ⟨a.x + b.x, a.y + b.y, a.z + b.z⟩ := rfl

/-- Rotating by the identity quaternion is the identity. -/
theorem Quat.mulVec3_id (v : Vec3 α) : Quat.mulVec3 Quat.id v = v := by
  cases v
  simp only [Quat.mulVec3, Quat.id, Quat.xyz, Vec3.cross, Vec3.smul, Vec3.add_def]
  congr 1 <;> ring

/-- The vertex pipeline of `create_collider_from_gltf_node` with the
node's own transform: rotate, add the scale-divided translation, scale —
which equals `translation + scale * (rotation * v)` when no scale
component is zero. -/
theorem collider_pipeline_eq (tr : Transform α)
    (hx : tr.scale.x ≠ 0) (hy : tr.scale.y ≠ 0) (hz : tr.scale.z ≠ 0) (v : Vec3 α) :
    Quat.mulVec3 Quat.id
        (Vec3.cmul (Quat.mulVec3 tr.rotation v + Vec3.cdiv tr.translation tr.scale) tr.scale)
        + Vec3.zero
      = actualColliderVertex tr v := by
  rw [Quat.mulVec3_id]
  simp only [actualColliderVertex, Vec3.cmul, Vec3.cdiv, Vec3.zero, Vec3.add_def]
  congr 1
  · field_simp
  · field_simp
  · field_simp

/-! ## C1: the collider vertex transformation -/

/-- **C1** (counterexample): `create_collider_from_gltf_node` does not
apply the standard TRS composition `translation + rotation * (scale * v)`.
For the node transform with translation `0`, rotation `(0, 0, 3/5, 4/5)`
(a rotation about z) and the non-uniform scale `(2, 1, 1)`, the vertex
`(1, 0, 0)` is mapped to `(14/25, 24/25, 0)` by the code but to
`(14/25, 48/25, 0)` by the claimed composition. -/
theorem c1_collider_trs_counterexample :
    create_collider_from_gltf_node
        (⟨some 0, ⟨⟨0, 0, 0⟩, ⟨0, 0, 3/5, 4/5⟩, ⟨2, 1, 1⟩⟩⟩ : GltfNode ℚ)
        (fun h => if h = 0 then some ⟨[⟨0, some 0⟩]⟩ else none)
        (fun h => if h = 0 then some ⟨some [⟨1, 0, 0⟩]⟩ else none) false
      ≠ some ([(⟨1, 0, 0⟩ : Vec3 ℚ)].map
          (claimedTRSVertex ⟨⟨0, 0, 0⟩, ⟨0, 0, 3/5, 4/5⟩, ⟨2, 1, 1⟩⟩)) := by
  simp only [create_collider_from_gltf_node, claimedTRSVertex, Quat.mulVec3, Quat.xyz,
    Quat.id, Vec3.cross, Vec3.smul, Vec3.cmul, Vec3.cdiv, Vec3.zero, Vec3.add_def,
    List.map, Transform.IDENTITY, Vec3.one]
  norm_num

/-- **C1** (amended): for every GLTF node with a mesh whose lookups
succeed and whose scale has no zero component,
`create_collider_from_gltf_node` returns the triangle-mesh vertices with
`translation + scale * (rotation * v)` composed onto them — the scale is
applied componentwise *after* the rotation (not before it as in the
standard TRS order) — and with `ignore_transform = true` the vertices are
returned unchanged. -/
theorem c1_collider_trs_amended (node : GltfNode α)
    (gm : ℕ → Option GltfMeshA) (ms : ℕ → Option (MeshA α))
    (mh : ℕ) (gmesh : GltfMeshA) (prim : GltfPrimitive) (rest : List GltfPrimitive)
    (mesh : MeshA α) (verts : List (Vec3 α))
    (h1 : node.mesh = some mh) (h2 : gm mh = some gmesh)
    (h3 : gmesh.primitives = prim :: rest) (h4 : ms prim.mesh = some mesh)
    (h5 : mesh.trimesh = some verts)
    (hx : node.transform.scale.x ≠ 0) (hy : node.transform.scale.y ≠ 0)
    (hz : node.transform.scale.z ≠ 0) :
    create_collider_from_gltf_node node gm ms false
        = some (verts.map (actualColliderVertex node.transform))
      ∧ create_collider_from_gltf_node node gm ms true = some verts := by
  constructor
  · simp only [create_collider_from_gltf_node, h1, h2, h3, h4, h5, Bool.false_eq_true,
      if_false, List.map_map, Option.some.injEq]
    refine List.map_congr_left fun v _ => ?_
    exact collider_pipeline_eq node.transform hx hy hz v
  · simp only [create_collider_from_gltf_node, h1, h2, h3, h4, h5, if_true,
      List.map_map, Option.some.injEq]
    have hone : ∀ v : Vec3 α,
        Quat.mulVec3 Quat.id
            (Vec3.cmul
              (Quat.mulVec3 Transform.IDENTITY.rotation v
                + Vec3.cdiv Transform.IDENTITY.translation Transform.IDENTITY.scale)
              Transform.IDENTITY.scale)
            + Vec3.zero
          = v := by
      intro v
      simp only [Transform.IDENTITY]
      simp only [Quat.mulVec3_id]
      cases v
      simp only [Vec3.cmul, Vec3.cdiv, Vec3.zero, Vec3.one, Vec3.add_def]
      congr 1 <;> ring
    refine (List.map_congr_left fun v _ => hone v).trans (List.map_id verts)

/-- Witness for C1 (amended) at a concrete rational input. -/
theorem c1_collider_trs_amended_witness :
    create_collider_from_gltf_node
          (⟨some 0, ⟨⟨0, 0, 0⟩, ⟨0, 0, 3/5, 4/5⟩, ⟨2, 1, 1⟩⟩⟩ : GltfNode ℚ)
          (fun h => if h = 0 then some ⟨[⟨0, some 0⟩]⟩ else none)
          (fun h => if h = 0 then some ⟨some [⟨1, 0, 0⟩]⟩ else none) false
        = some ([(⟨1, 0, 0⟩ : Vec3 ℚ)].map
            (actualColliderVertex ⟨⟨0, 0, 0⟩, ⟨0, 0, 3/5, 4/5⟩, ⟨2, 1, 1⟩⟩))
      ∧ create_collider_from_gltf_node
          (⟨some 0, ⟨⟨0, 0, 0⟩, ⟨0, 0, 3/5, 4/5⟩, ⟨2, 1, 1⟩⟩⟩ : GltfNode ℚ)
          (fun h => if h = 0 then some ⟨[⟨0, some 0⟩]⟩ else none)
          (fun h => if h = 0 then some ⟨some [⟨1, 0, 0⟩]⟩ else none) true
        = some [(⟨1, 0, 0⟩ : Vec3 ℚ)] :=
  c1_collider_trs_amended _ _ _ 0 ⟨[⟨0, some 0⟩]⟩ ⟨0, some 0⟩ [] ⟨some [⟨1, 0, 0⟩]⟩
    [⟨1, 0, 0⟩] rfl rfl rfl rfl rfl (by norm_num) (by norm_num) (by norm_num)

/-! ## C4: the wall generation of `with_walls_around` -/

/-- Membership in an `if`-guarded singleton. -/
theorem mem_if_singleton {β : Type} (c : Prop) [Decidable c] (a x : β) :
    (x ∈ if c then [a] else []) ↔ c ∧ x = a := by
  by_cases hc : c <;> simp [hc]

/-- A pair `(p, d)` is in the wall segment of the grass cell `q` exactly
when `p = q` and the cell adjacent to `q` in direction `d` is not grass. -/
theorem mem_wallSegment (grass : List (ℤ × ℤ)) (q p : ℤ × ℤ) (d : Direction) :
    (p, d) ∈ wallSegment grass q
      ↔ p = q ∧ grass.contains (adjacentCell q d) = false := by
  cases d <;>
    simp [wallSegment, List.mem_append, mem_if_singleton, Prod.ext_iff, adjacentCell,
      Bool.not_eq_true', and_comm]

/-- Membership in `wallsOf`. -/
theorem mem_wallsOf (grass : List (ℤ × ℤ)) (p : ℤ × ℤ) (d : Direction) :
    (p, d) ∈ wallsOf grass
      ↔ p ∈ grass ∧ grass.contains (adjacentCell p d) = false := by
  simp only [wallsOf, List.mem_flatMap]
  constructor
  · rintro ⟨q, hq, hmem⟩
    obtain ⟨rfl, hc⟩ := (mem_wallSegment grass q p d).mp hmem
    exact ⟨hq, hc⟩
  · rintro ⟨hp, hc⟩
    exact ⟨p, hp, (mem_wallSegment grass p p d).mpr ⟨rfl, hc⟩⟩

/-- Every element of a wall segment carries the segment's own cell. -/
theorem fst_of_mem_wallSegment (grass : List (ℤ × ℤ)) (q : ℤ × ℤ)
    (w : (ℤ × ℤ) × Direction) (hw : w ∈ wallSegment grass q) : w.1 = q := by
  obtain ⟨hq, _⟩ := (mem_wallSegment grass q w.1 w.2).mp hw
  exact hq

/-- A wall segment has no duplicates (its at most four entries have
pairwise distinct directions). -/
theorem nodup_wallSegment (grass : List (ℤ × ℤ)) (q : ℤ × ℤ) :
    (wallSegment grass q).Nodup := by
  unfold wallSegment
  split_ifs <;> simp_all [List.Nodup]

/-- Auxiliary nodup statement for `wallsOf`, generalising over the cell
list being iterated while the grass set consulted by the `contains`
checks stays fixed. -/
theorem nodup_flatMap_wallSegment (grass cells : List (ℤ × ℤ)) (h : cells.Nodup) :
    (cells.flatMap (wallSegment grass)).Nodup := by
  induction cells with
  | nil => simp
  | cons q rest ih =>
    rw [List.flatMap_cons, List.nodup_append]
    refine ⟨nodup_wallSegment grass q, ih (List.nodup_cons.mp h).2, ?_⟩
    intro w hwq hwrest
    obtain ⟨c, hc, hwc⟩ := List.mem_flatMap.mp hwrest
    have h1 : w.1 = q := fst_of_mem_wallSegment grass q w hwq
    have h2 : w.1 = c := fst_of_mem_wallSegment grass c w hwc
    exact (List.nodup_cons.mp h).1 (h1 ▸ h2 ▸ hc)

/-- `wallsOf` of a duplicate-free grass list has no duplicates. -/
theorem nodup_wallsOf (grass : List (ℤ × ℤ)) (h : grass.Nodup) :
    (wallsOf grass).Nodup :=
  nodup_flatMap_wallSegment grass grass h

/-- `List.contains` agrees with membership. -/
theorem contains_iff {β : Type} [BEq β] [LawfulBEq β] (l : List β) (a : β) :
    l.contains a = true ↔ a ∈ l := by
  simp [List.contains, List.elem_iff]

/-- The grass set contains exactly the positions with a floor tile. -/
theorem mem_grassOf (self : List Tile) (p : ℤ × ℤ) :
    p ∈ grassOf self ↔ hasFloorAt self p = true := by
  simp only [grassOf, hasFloorAt, List.mem_dedup, List.mem_map, List.mem_filter,
    List.any_eq_true, decide_eq_true_eq]
  constructor
  · rintro ⟨t, ⟨ht, hf⟩, rfl⟩
    exact ⟨t, ht, rfl, hf⟩
  · rintro ⟨t, ht, rfl, hf⟩
    exact ⟨t, ⟨ht, hf⟩, rfl⟩

/-- **C4**: `with_walls_around` appends, to the unchanged existing tiles,
exactly one `Wall` tile at `(x, y)` with direction `d` for each pair of a
floor tile at `(x, y)` and a direction `d` whose adjacent cell holds no
floor tile — and nothing else. -/
theorem c4_with_walls_around (self : List Tile) :
    LaneConfig.withWallsAround self
        = self ++ (LaneConfig.withWallsAround self).drop self.length
      ∧ (∀ t ∈ (LaneConfig.withWallsAround self).drop self.length,
          ∃ x y d, t = ((x, y), LanePart.Wall d))
      ∧ (∀ x y d, (((x, y), LanePart.Wall d)
            ∈ (LaneConfig.withWallsAround self).drop self.length)
          ↔ (hasFloorAt self (x, y) = true
              ∧ hasFloorAt self (adjacentCell (x, y) d) = false))
      ∧ ((LaneConfig.withWallsAround self).drop self.length).Nodup := by
  have hdrop : (LaneConfig.withWallsAround self).drop self.length
      = (wallsOf (grassOf self)).map (fun w => (w.1, LanePart.Wall w.2)) := by
    simp [LaneConfig.withWallsAround, List.drop_left]
  refine ⟨?_, ?_, ?_, ?_⟩
  · rw [hdrop]
    rfl
  · rw [hdrop]
    intro t ht
    obtain ⟨w, _, rfl⟩ := List.mem_map.mp ht
    exact ⟨w.1.1, w.1.2, w.2, rfl⟩
  · intro x y d
    rw [hdrop]
    constructor
    · intro hmem
      obtain ⟨w, hw, heq⟩ := List.mem_map.mp hmem
      obtain ⟨wp, wd⟩ := w
      simp only [Prod.mk.injEq, LanePart.Wall.injEq] at heq
      obtain ⟨h1, h2⟩ := heq
      rw [h1, h2] at hw
      obtain ⟨hg, hc⟩ := (mem_wallsOf _ _ _).mp hw
      refine ⟨(mem_grassOf self _).mp hg, ?_⟩
      by_contra hfalse
      have : hasFloorAt self (adjacentCell (x, y) d) = true := by
        cases h : hasFloorAt self (adjacentCell (x, y) d)
        · exact absurd h hfalse
        · rfl
      have : adjacentCell (x, y) d ∈ grassOf self := (mem_grassOf self _).mpr this
      rw [(contains_iff _ _).mpr this] at hc
      exact absurd hc (by simp)
    · rintro ⟨hfloor, hnofloor⟩
      refine List.mem_map.mpr ⟨((x, y), d), ?_, rfl⟩
      refine (mem_wallsOf _ _ _).mpr ⟨(mem_grassOf self _).mpr hfloor, ?_⟩
      cases hc : (grassOf self).contains (adjacentCell (x, y) d)
      · rfl
      · have := (contains_iff _ _).mp hc
        rw [(mem_grassOf self _).mp this] at hnofloor
        exact absurd hnofloor (by simp)
  · rw [hdrop]
    refine List.Nodup.map ?_ (nodup_wallsOf _ (List.nodup_dedup _))
    intro a b hab
    obtain ⟨a1, a2⟩ := a
    obtain ⟨b1, b2⟩ := b
    simpa [Prod.ext_iff] using hab

/-- Witness for C4: for a single floor tile at the origin, the tile
`((0,0), Wall Right)` is among the appended walls. -/
theorem c4_with_walls_around_witness :
    (((0, 0), LanePart.Wall Direction.Right)
        ∈ (LaneConfig.withWallsAround [((0, 0), LanePart.BasicFloor)]).drop
            [((0, 0), LanePart.BasicFloor)].length) :=
  ((c4_with_walls_around [((0, 0), LanePart.BasicFloor)]).2.2.1 0 0 Direction.Right).mpr
    ⟨by decide, by decide⟩

/-! ## C7: the requested scene assets -/

/-- **C7**: `load_assets` requests exactly five scene assets — the five
`models/*.gltf#Scene0` paths — and pushes exactly one untyped handle per
requested path onto the `AssetsLoading` vector, in request order. -/
theorem c7_load_assets {H : Type} (load : String → H) (loading : List H) :
    load_assets load loading = loading ++ scenePaths.map load
      ∧ scenePaths.length = 5
      ∧ scenePaths =
          ["models/lane.gltf#Scene0", "models/sphere.gltf#Scene0",
           "models/cube.gltf#Scene0", "models/cone.gltf#Scene0",
           "models/biggus_dickus.gltf#Scene0"]
      ∧ ∀ p ∈ scenePaths,
          List.IsPrefix "models/".data p.data
            ∧ List.IsSuffix ".gltf#Scene0".data p.data := by
  refine ⟨?_, rfl, rfl, ?_⟩
  · simp [load_assets, scenePaths]
  · intro p hp
    simp only [scenePaths, List.mem_cons, List.not_mem_nil, or_false] at hp
    rcases hp with rfl | rfl | rfl | rfl | rfl <;> exact ⟨by decide, by decide⟩

/-- Witness for C7 at the first requested path. -/
theorem c7_load_assets_witness :
    List.IsPrefix "models/".data "models/lane.gltf#Scene0".data
      ∧ List.IsSuffix ".gltf#Scene0".data "models/lane.gltf#Scene0".data :=
  (c7_load_assets (fun p => p) []).2.2.2 "models/lane.gltf#Scene0"
    (by unfold scenePaths; exact List.mem_cons_self _ _)

/-! ## Lemmas about `modifyAt` -/

theorem modifyAt_getElem_self {β : Type} (l : List β) (i : ℕ) (f : β → β) (b : β)
    (h : l[i]? = some b) : (modifyAt l i f)[i]? = some (f b) := by
  induction l generalizing i with
  | nil => simp at h
  | cons a rest ih =>
    cases i with
    | zero =>
      simp only [List.getElem?_cons_zero, Option.some.injEq] at h
      subst h
      simp [modifyAt]
    | succ j =>
      simp only [List.getElem?_cons_succ] at h
      simpa [modifyAt] using ih j h

theorem modifyAt_getElem_other {β : Type} (l : List β) (i j : ℕ) (f : β → β)
    (h : j ≠ i) : (modifyAt l i f)[j]? = l[j]? := by
  induction l generalizing i j with
  | nil => simp [modifyAt]
  | cons a rest ih =>
    cases i with
    | zero =>
      cases j with
      | zero => exact absurd rfl h
      | succ k => simp [modifyAt]
    | succ i2 =>
      cases j with
      | zero => simp [modifyAt]
      | succ k =>
        simp only [modifyAt, List.getElem?_cons_succ]
        exact ih i2 k (fun hk => h (by rw [hk]))

/-! ## C10: the current-player invariant -/

/-- **C10**: `GameState::new(n)` establishes `current_player < num_players`
for every positive `n`, and the only update of `current_player` — the
increment modulo `num_players` inside `check_ball_in_hole` — preserves
it. -/
theorem c10_current_player_invariant :
    (∀ n : ℕ, 0 < n →
        (GameState.new n).current_player < (GameState.new n).num_players)
      ∧ ∀ (ops : FloatOps ℝ) (intersect : ℕ → ℕ → Option Bool) (hole : ℕ)
          (ball : BallEntity ℝ) (st : HoleCheckState),
          st.gs.current_player < st.gs.num_players →
          (ballInHoleStep ops intersect hole ball st).gs.current_player
            < (ballInHoleStep ops intersect hole ball st).gs.num_players := by
  constructor
  · intro n hn
    simpa [GameState.new] using hn
  · intro ops intersect hole ball st h
    unfold ballInHoleStep
    split
    · exact Nat.mod_lt _ (lt_of_le_of_lt (Nat.zero_le _) h)
    · exact h

/-- Witness for C10 with four players and a ball falling into a hole. -/
theorem c10_current_player_invariant_witness :
    (GameState.new 4).current_player < (GameState.new 4).num_players
      ∧ (ballInHoleStep (⟨0, fun x => x, fun x => x, fun x => x⟩ : FloatOps ℝ)
            (fun _ _ => some true) 0 ⟨0, 0, 0, ⟨0, 0, 0⟩, ⟨0, 0, 0⟩⟩
            ⟨GameState.new 4, [], false⟩).gs.current_player
          < (ballInHoleStep (⟨0, fun x => x, fun x => x, fun x => x⟩ : FloatOps ℝ)
            (fun _ _ => some true) 0 ⟨0, 0, 0, ⟨0, 0, 0⟩, ⟨0, 0, 0⟩⟩
            ⟨GameState.new 4, [], false⟩).gs.num_players :=
  ⟨(c10_current_player_invariant).1 4 (by norm_num),
   (c10_current_player_invariant).2 _ _ 0 _ _ (by norm_num [GameState.new])⟩

/-! ## C2: win-condition detection -/

/-- **C2**: for every hole sensor and ball, when the ball's velocity
magnitude is below `0.01` and the ball intersects the hole sensor,
`check_ball_in_hole`'s loop body appends the ball's hit count to its
player's score list (leaving the other players untouched), despawns the
ball entity, advances the current player by one modulo the number of
players, and declares level completion exactly when every player's score
list has length 1; for a single hole and ball the whole system equals
this one step. -/
theorem c2_check_ball_in_hole (intersect : ℕ → ℕ → Option Bool) (hole : ℕ)
    (ball : BallEntity ℝ) (st : HoleCheckState) (p : PlayerData)
    (hv : Vec3.length (⟨Real.pi, Real.sqrt, Real.sin, Real.cos⟩ : FloatOps ℝ)
        ball.linvel < 0.01)
    (hi : intersect hole ball.id = some true)
    (hp : st.gs.players[ball.player_id]? = some p) :
    (ballInHoleStep (⟨Real.pi, Real.sqrt, Real.sin, Real.cos⟩ : FloatOps ℝ)
          intersect hole ball st).gs.players[ball.player_id]?
        = some ⟨p.scores ++ [ball.hits]⟩
      ∧ (∀ j, j ≠ ball.player_id →
          (ballInHoleStep (⟨Real.pi, Real.sqrt, Real.sin, Real.cos⟩ : FloatOps ℝ)
              intersect hole ball st).gs.players[j]?
            = st.gs.players[j]?)
      ∧ (ballInHoleStep (⟨Real.pi, Real.sqrt, Real.sin, Real.cos⟩ : FloatOps ℝ)
            intersect hole ball st).despawned
          = st.despawned ++ [ball.id]
      ∧ (ballInHoleStep (⟨Real.pi, Real.sqrt, Real.sin, Real.cos⟩ : FloatOps ℝ)
            intersect hole ball st).gs.current_player
          = (st.gs.current_player + 1) % st.gs.num_players
      ∧ (ballInHoleStep (⟨Real.pi, Real.sqrt, Real.sin, Real.cos⟩ : FloatOps ℝ)
            intersect hole ball st).gs.num_players
          = st.gs.num_players
      ∧ ((ballInHoleStep (⟨Real.pi, Real.sqrt, Real.sin, Real.cos⟩ : FloatOps ℝ)
              intersect hole ball st).completed = true
          ↔ ∀ q ∈ (ballInHoleStep (⟨Real.pi, Real.sqrt, Real.sin, Real.cos⟩ : FloatOps ℝ)
              intersect hole ball st).gs.players, q.scores.length = 1)
      ∧ check_ball_in_hole (⟨Real.pi, Real.sqrt, Real.sin, Real.cos⟩ : FloatOps ℝ)
            intersect [hole] [ball] st
          = ballInHoleStep (⟨Real.pi, Real.sqrt, Real.sin, Real.cos⟩ : FloatOps ℝ)
              intersect hole ball st := by
  have hstep : ballInHoleStep (⟨Real.pi, Real.sqrt, Real.sin, Real.cos⟩ : FloatOps ℝ)
      intersect hole ball st
      = { gs :=
            { num_players := st.gs.num_players
              current_player := (st.gs.current_player + 1) % st.gs.num_players
              players := modifyAt st.gs.players ball.player_id
                (fun q => { q with scores := q.scores ++ [ball.hits] }) }
          despawned := st.despawned ++ [ball.id]
          completed := (modifyAt st.gs.players ball.player_id
            (fun q => { q with scores := q.scores ++ [ball.hits] })).all
            fun q => q.scores.length == 1 } := by
    unfold ballInHoleStep
    rw [if_pos ⟨hv, hi⟩]
  rw [hstep]
  refine ⟨?_, ?_, rfl, rfl, rfl, ?_, ?_⟩
  · exact modifyAt_getElem_self st.gs.players ball.player_id _ p hp
  · intro j hj
    exact modifyAt_getElem_other st.gs.players ball.player_id j _ hj
  · simp [List.all_eq_true]
  · rw [← hstep]
    rfl

/-- Witness for C2: one player, one hole, a resting intersecting ball with
3 hits. -/
theorem c2_check_ball_in_hole_witness :
    (ballInHoleStep (⟨Real.pi, Real.sqrt, Real.sin, Real.cos⟩ : FloatOps ℝ)
          (fun _ _ => some true) 0 ⟨5, 0, 3, ⟨0, 0, 0⟩, ⟨0, 0, 0⟩⟩
          ⟨⟨1, 0, [⟨[]⟩]⟩, [], false⟩).gs.players[(0 : ℕ)]?
        = some ⟨[] ++ [3]⟩
      ∧ (∀ j, j ≠ (0 : ℕ) →
          (ballInHoleStep (⟨Real.pi, Real.sqrt, Real.sin, Real.cos⟩ : FloatOps ℝ)
              (fun _ _ => some true) 0 ⟨5, 0, 3, ⟨0, 0, 0⟩, ⟨0, 0, 0⟩⟩
              ⟨⟨1, 0, [⟨[]⟩]⟩, [], false⟩).gs.players[j]?
            = (⟨⟨1, 0, [⟨[]⟩]⟩, [], false⟩ : HoleCheckState).gs.players[j]?)
      ∧ (ballInHoleStep (⟨Real.pi, Real.sqrt, Real.sin, Real.cos⟩ : FloatOps ℝ)
            (fun _ _ => some true) 0 ⟨5, 0, 3, ⟨0, 0, 0⟩, ⟨0, 0, 0⟩⟩
            ⟨⟨1, 0, [⟨[]⟩]⟩, [], false⟩).despawned
          = [] ++ [5]
      ∧ (ballInHoleStep (⟨Real.pi, Real.sqrt, Real.sin, Real.cos⟩ : FloatOps ℝ)
            (fun _ _ => some true) 0 ⟨5, 0, 3, ⟨0, 0, 0⟩, ⟨0, 0, 0⟩⟩
            ⟨⟨1, 0, [⟨[]⟩]⟩, [], false⟩).gs.current_player
          = (0 + 1) % 1
      ∧ (ballInHoleStep (⟨Real.pi, Real.sqrt, Real.sin, Real.cos⟩ : FloatOps ℝ)
            (fun _ _ => some true) 0 ⟨5, 0, 3, ⟨0, 0, 0⟩, ⟨0, 0, 0⟩⟩
            ⟨⟨1, 0, [⟨[]⟩]⟩, [], false⟩).gs.num_players
          = 1
      ∧ ((ballInHoleStep (⟨Real.pi, Real.sqrt, Real.sin, Real.cos⟩ : FloatOps ℝ)
              (fun _ _ => some true) 0 ⟨5, 0, 3, ⟨0, 0, 0⟩, ⟨0, 0, 0⟩⟩
              ⟨⟨1, 0, [⟨[]⟩]⟩, [], false⟩).completed = true
          ↔ ∀ q ∈ (ballInHoleStep (⟨Real.pi, Real.sqrt, Real.sin, Real.cos⟩ : FloatOps ℝ)
              (fun _ _ => some true) 0 ⟨5, 0, 3, ⟨0, 0, 0⟩, ⟨0, 0, 0⟩⟩
              ⟨⟨1, 0, [⟨[]⟩]⟩, [], false⟩).gs.players, q.scores.length = 1)
      ∧ check_ball_in_hole (⟨Real.pi, Real.sqrt, Real.sin, Real.cos⟩ : FloatOps ℝ)
            (fun _ _ => some true) [0] [⟨5, 0, 3, ⟨0, 0, 0⟩, ⟨0, 0, 0⟩⟩]
            ⟨⟨1, 0, [⟨[]⟩]⟩, [], false⟩
          = ballInHoleStep (⟨Real.pi, Real.sqrt, Real.sin, Real.cos⟩ : FloatOps ℝ)
              (fun _ _ => some true) 0 ⟨5, 0, 3, ⟨0, 0, 0⟩, ⟨0, 0, 0⟩⟩
              ⟨⟨1, 0, [⟨[]⟩]⟩, [], false⟩ :=
  c2_check_ball_in_hole (fun _ _ => some true) 0 ⟨5, 0, 3, ⟨0, 0, 0⟩, ⟨0, 0, 0⟩⟩
    ⟨⟨1, 0, [⟨[]⟩]⟩, [], false⟩ ⟨[]⟩
    (by show Real.sqrt (0 * 0 + 0 * 0 + 0 * 0) < 0.01
        rw [show (0 : ℝ) * 0 + 0 * 0 + 0 * 0 = 0 by ring, Real.sqrt_zero]
        norm_num)
    rfl rfl

/-! ## Lemmas about the Rust float remainder -/

theorem rustRem_lt [FloorRing α] (a b : α) (hb : 0 < b) : rustRem a b < b := by
  unfold rustRem rtrunc
  split
  · have h1 : a / b - 1 < (⌊a / b⌋ : α) := Int.sub_one_lt_floor (a / b)
    have h2 : b * (a / b) = a := by field_simp
    have h3 := mul_lt_mul_of_pos_left h1 hb
    have h4 : b * (a / b - 1) = a - b := by rw [mul_sub, h2, mul_one]
    linarith
  · have h1 : a / b ≤ (⌈a / b⌉ : α) := Int.le_ceil (a / b)
    have h2 : b * (a / b) = a := by field_simp
    have h3 := mul_le_mul_of_nonneg_left h1 (le_of_lt hb)
    linarith

theorem neg_lt_rustRem [FloorRing α] (a b : α) (hb : 0 < b) : -b < rustRem a b := by
  unfold rustRem rtrunc
  split
  · have h1 : (⌊a / b⌋ : α) ≤ a / b := Int.floor_le (a / b)
    have h2 : b * (a / b) = a := by field_simp
    have h3 := mul_le_mul_of_nonneg_left h1 (le_of_lt hb)
    linarith
  · have h1 : (⌈a / b⌉ : α) < a / b + 1 := Int.ceil_lt_add_one (a / b)
    have h2 : b * (a / b) = a := by field_simp
    have h3 := mul_lt_mul_of_pos_left h1 hb
    have h4 : b * (a / b + 1) = a + b := by rw [mul_add, h2, mul_one]
    linarith

theorem rustRem_eq_self [FloorRing α] (a b : α) (h0 : 0 ≤ a) (hab : a < b) :
    rustRem a b = a := by
  have hb : 0 < b := lt_of_le_of_lt h0 hab
  have hdiv0 : 0 ≤ a / b := div_nonneg h0 (le_of_lt hb)
  have hdiv1 : a / b < 1 := (div_lt_one hb).mpr hab
  have hfl : ⌊a / b⌋ = 0 := Int.floor_eq_zero_iff.mpr ⟨hdiv0, hdiv1⟩
  unfold rustRem rtrunc
  rw [if_pos hdiv0, hfl]
  simp

/-! ## Lemmas about the aim-adjustment block -/

/-- The clamp-and-normalize tail of `adjustShoot`, for an arbitrary
intermediate shoot value `t`: the power lands in `[0, 10]` and the angle
in `[0, b2)`. -/
theorem clampNormalize_bounds [FloorRing α] (b2 : α) (hb : 0 < b2) (t : ShootSettings α) :
    0 ≤ (if rustRem t.angle b2 < 0
          then (⟨min (max t.power 0) 10, rustRem t.angle b2 + b2, t.spin⟩ : ShootSettings α)
          else ⟨min (max t.power 0) 10, rustRem t.angle b2, t.spin⟩).power
      ∧ (if rustRem t.angle b2 < 0
          then (⟨min (max t.power 0) 10, rustRem t.angle b2 + b2, t.spin⟩ : ShootSettings α)
          else ⟨min (max t.power 0) 10, rustRem t.angle b2, t.spin⟩).power ≤ 10
      ∧ 0 ≤ (if rustRem t.angle b2 < 0
          then (⟨min (max t.power 0) 10, rustRem t.angle b2 + b2, t.spin⟩ : ShootSettings α)
          else ⟨min (max t.power 0) 10, rustRem t.angle b2, t.spin⟩).angle
      ∧ (if rustRem t.angle b2 < 0
          then (⟨min (max t.power 0) 10, rustRem t.angle b2 + b2, t.spin⟩ : ShootSettings α)
          else ⟨min (max t.power 0) 10, rustRem t.angle b2, t.spin⟩).angle < b2 := by
  split
  case isTrue h =>
    refine ⟨le_min (le_max_right _ _) (by norm_num), min_le_right _ _, ?_, ?_⟩
    · have := neg_lt_rustRem t.angle b2 hb
      dsimp only
      linarith
    · dsimp only
      linarith
  case isFalse h =>
    refine ⟨le_min (le_max_right _ _) (by norm_num), min_le_right _ _, ?_, ?_⟩
    · dsimp only
      exact not_lt.mp h
    · dsimp only
      exact rustRem_lt t.angle b2 hb

/-- The adjusted shoot settings always satisfy the bounds, whatever the
pressed keys and the previous settings. -/
theorem adjustShoot_bounds [FloorRing α] [DecidableEq α] (ops : FloatOps α) (keys : Keys)
    (s : ShootSettings α) (hpi : 0 < ops.pi) :
    0 ≤ (adjustShoot ops keys s).power ∧ (adjustShoot ops keys s).power ≤ 10
      ∧ 0 ≤ (adjustShoot ops keys s).angle
      ∧ (adjustShoot ops keys s).angle < 2 * ops.pi := by
  have hb : (0 : α) < 2 * ops.pi := by linarith
  unfold adjustShoot
  dsimp only
  exact clampNormalize_bounds (2 * ops.pi) hb _

omit [LinearOrderedField α] in
/-- The spin of a conditional between two shoot values with the same
spin. -/
theorem spin_of_ite (c : Prop) [Decidable c] (p1 p2 a1 a2 : α) (sp : Option BallSpin) :
    (if c then (⟨p1, a1, sp⟩ : ShootSettings α) else ⟨p2, a2, sp⟩).spin = sp := by
  split <;> rfl

/-- With none of the adjustment keys pressed and settings already inside
the bounds, the adjustment block is the identity. -/
theorem adjustShoot_eval_nokeys [FloorRing α] [DecidableEq α] (ops : FloatOps α)
    (sp : Bool) (s : ShootSettings α)
    (h0 : 0 ≤ s.power) (h10 : s.power ≤ 10)
    (ha0 : 0 ≤ s.angle) (ha : s.angle < 2 * ops.pi) :
    adjustShoot ops ⟨false, false, false, false, false, false, false, sp⟩ s = s := by
  unfold adjustShoot
  simp only [Bool.false_eq_true, if_false]
  rw [max_eq_left h0, min_eq_left h10, rustRem_eq_self s.angle _ ha0 ha]
  rw [if_neg (not_lt.mpr ha0)]

/-- Pressing `Q` (without `E` or `Escape`) toggles the spin between
`Some(Left)` and `None` (any other spin also becomes `Some(Left)`). -/
theorem adjustShoot_spin_q [FloorRing α] [DecidableEq α] (ops : FloatOps α)
    (keys : Keys) (s : ShootSettings α)
    (hq : keys.q = true) (he : keys.e = false) (hesc : keys.escape = false) :
    (adjustShoot ops keys s).spin
      = if s.spin = some BallSpin.Left then none else some BallSpin.Left := by
  unfold adjustShoot
  cases hw : keys.w <;> cases hs : keys.s <;> cases ha2 : keys.a <;> cases hd : keys.d <;>
    simp only [hq, he, hesc, hw, hs, ha2, hd, Bool.false_eq_true, if_false, if_true,
      eq_self_iff_true, spin_of_ite]

/-- Pressing `E` (without `Q` or `Escape`) toggles the spin between
`Some(Right)` and `None` (any other spin also becomes `Some(Right)`). -/
theorem adjustShoot_spin_e [FloorRing α] [DecidableEq α] (ops : FloatOps α)
    (keys : Keys) (s : ShootSettings α)
    (hq : keys.q = false) (he : keys.e = true) (hesc : keys.escape = false) :
    (adjustShoot ops keys s).spin
      = if s.spin = some BallSpin.Right then none else some BallSpin.Right := by
  unfold adjustShoot
  cases hw : keys.w <;> cases hs : keys.s <;> cases ha2 : keys.a <;> cases hd : keys.d <;>
    simp only [hq, he, hesc, hw, hs, ha2, hd, Bool.false_eq_true, if_false, if_true,
      eq_self_iff_true, spin_of_ite]

/-- After `keyboard_input`'s per-ball update, the shoot settings are the
adjusted settings, the default (after a fired shot), or the unchanged
previous settings. -/
theorem keyboardUpdateBall_shoot_cases [FloorRing α] [DecidableEq α] (ops : FloatOps α)
    (keys : Keys) (b0 : BallControl α) :
    (keyboardUpdateBall ops keys b0).shoot = adjustShoot ops keys b0.shoot
      ∨ (keyboardUpdateBall ops keys b0).shoot = ShootSettings.default
      ∨ (keyboardUpdateBall ops keys b0).shoot = b0.shoot := by
  unfold keyboardUpdateBall
  dsimp only
  by_cases h1 : Vec3.length ops b0.linvel < 0.01
  · rw [if_pos h1]
    by_cases hsp : keys.space = true
    · rw [if_pos hsp]
      split
      · exact Or.inr (Or.inl rfl)
      · split
        · exact Or.inl rfl
        · exact Or.inl rfl
    · rw [if_neg hsp]
      exact Or.inl rfl
  · rw [if_neg h1]
    by_cases hsp : keys.space = true
    · rw [if_pos hsp]
      split
      · exact Or.inr (Or.inl rfl)
      · split
        · exact Or.inr (Or.inr rfl)
        · exact Or.inr (Or.inr rfl)
    · rw [if_neg hsp]
      exact Or.inr (Or.inr rfl)

/-! ## C8: the shoot-settings bounds invariant -/

/-- **C8**: after every invocation of `keyboard_input`'s per-ball body,
the current player's shoot settings satisfy `0 ≤ power ≤ 10` and
`0 ≤ angle < 2π`, provided they did before. -/
theorem c8_shoot_settings_bounds (keys : Keys) (b : BallControl ℝ)
    (h0 : 0 ≤ b.shoot.power) (h10 : b.shoot.power ≤ 10)
    (ha0 : 0 ≤ b.shoot.angle) (ha : b.shoot.angle < 2 * Real.pi) :
    0 ≤ (keyboardUpdateBall (⟨Real.pi, Real.sqrt, Real.sin, Real.cos⟩ : FloatOps ℝ)
          keys b).shoot.power
      ∧ (keyboardUpdateBall (⟨Real.pi, Real.sqrt, Real.sin, Real.cos⟩ : FloatOps ℝ)
          keys b).shoot.power ≤ 10
      ∧ 0 ≤ (keyboardUpdateBall (⟨Real.pi, Real.sqrt, Real.sin, Real.cos⟩ : FloatOps ℝ)
          keys b).shoot.angle
      ∧ (keyboardUpdateBall (⟨Real.pi, Real.sqrt, Real.sin, Real.cos⟩ : FloatOps ℝ)
          keys b).shoot.angle < 2 * Real.pi := by
  rcases keyboardUpdateBall_shoot_cases
      (⟨Real.pi, Real.sqrt, Real.sin, Real.cos⟩ : FloatOps ℝ) keys b with h | h | h <;>
    rw [h]
  · exact adjustShoot_bounds _ keys b.shoot Real.pi_pos
  · refine ⟨le_rfl, ?_, le_rfl, ?_⟩
    · show (0 : ℝ) ≤ 10
      norm_num
    · show (0 : ℝ) < 2 * Real.pi
      positivity
  · exact ⟨h0, h10, ha0, ha⟩

/-- Witness for C8 at the default settings with no key pressed. -/
theorem c8_shoot_settings_bounds_witness :
    0 ≤ (keyboardUpdateBall (⟨Real.pi, Real.sqrt, Real.sin, Real.cos⟩ : FloatOps ℝ)
          ⟨false, false, false, false, false, false, false, false⟩
          ⟨0, 0, 1, ⟨0, 0, 0⟩, ⟨0, 0, 0⟩, ⟨0, 0, 0⟩, ⟨0, 0, none⟩⟩).shoot.power
      ∧ (keyboardUpdateBall (⟨Real.pi, Real.sqrt, Real.sin, Real.cos⟩ : FloatOps ℝ)
          ⟨false, false, false, false, false, false, false, false⟩
          ⟨0, 0, 1, ⟨0, 0, 0⟩, ⟨0, 0, 0⟩, ⟨0, 0, 0⟩, ⟨0, 0, none⟩⟩).shoot.power ≤ 10
      ∧ 0 ≤ (keyboardUpdateBall (⟨Real.pi, Real.sqrt, Real.sin, Real.cos⟩ : FloatOps ℝ)
          ⟨false, false, false, false, false, false, false, false⟩
          ⟨0, 0, 1, ⟨0, 0, 0⟩, ⟨0, 0, 0⟩, ⟨0, 0, 0⟩, ⟨0, 0, none⟩⟩).shoot.angle
      ∧ (keyboardUpdateBall (⟨Real.pi, Real.sqrt, Real.sin, Real.cos⟩ : FloatOps ℝ)
          ⟨false, false, false, false, false, false, false, false⟩
          ⟨0, 0, 1, ⟨0, 0, 0⟩, ⟨0, 0, 0⟩, ⟨0, 0, 0⟩, ⟨0, 0, none⟩⟩).shoot.angle
        < 2 * Real.pi :=
  c8_shoot_settings_bounds ⟨false, false, false, false, false, false, false, false⟩
    ⟨0, 0, 1, ⟨0, 0, 0⟩, ⟨0, 0, 0⟩, ⟨0, 0, 0⟩, ⟨0, 0, none⟩⟩
    le_rfl (by norm_num) le_rfl (by positivity)

/-! ## C5: spin mechanics -/

/-- **C5**: while the current ball is nearly at rest, `Q` toggles the spin
between `Some(Left)` and `None` and `E` toggles it between `Some(Right)`
and `None`; when the shot is fired, spin `Some(Left)` adds a torque
impulse of `-mass` to both the x and y components, `Some(Right)` adds
`+mass`, and `None` adds zero torque (the z component is unchanged). -/
theorem c5_spin_mechanics :
    (∀ (keys : Keys) (b : BallControl ℝ),
        keys.q = true → keys.e = false → keys.escape = false → keys.space = false →
        Vec3.length (⟨Real.pi, Real.sqrt, Real.sin, Real.cos⟩ : FloatOps ℝ) b.linvel < 0.01 →
        (keyboardUpdateBall (⟨Real.pi, Real.sqrt, Real.sin, Real.cos⟩ : FloatOps ℝ)
            keys b).shoot.spin
          = if b.shoot.spin = some BallSpin.Left then none else some BallSpin.Left)
      ∧ (∀ (keys : Keys) (b : BallControl ℝ),
        keys.q = false → keys.e = true → keys.escape = false → keys.space = false →
        Vec3.length (⟨Real.pi, Real.sqrt, Real.sin, Real.cos⟩ : FloatOps ℝ) b.linvel < 0.01 →
        (keyboardUpdateBall (⟨Real.pi, Real.sqrt, Real.sin, Real.cos⟩ : FloatOps ℝ)
            keys b).shoot.spin
          = if b.shoot.spin = some BallSpin.Right then none else some BallSpin.Right)
      ∧ ∀ b : BallControl ℝ,
        Vec3.length (⟨Real.pi, Real.sqrt, Real.sin, Real.cos⟩ : FloatOps ℝ) b.linvel < 0.01 →
        b.shoot ≠ ShootSettings.default →
        0 ≤ b.shoot.power → b.shoot.power ≤ 10 →
        0 ≤ b.shoot.angle → b.shoot.angle < 2 * Real.pi →
        (keyboardUpdateBall (⟨Real.pi, Real.sqrt, Real.sin, Real.cos⟩ : FloatOps ℝ)
              ⟨false, false, false, false, false, false, false, true⟩ b).torque_impulse.x
            = b.torque_impulse.x
              + (match b.shoot.spin with
                | some BallSpin.Left => -b.mass
                | some BallSpin.Right => b.mass
                | none => 0)
          ∧ (keyboardUpdateBall (⟨Real.pi, Real.sqrt, Real.sin, Real.cos⟩ : FloatOps ℝ)
              ⟨false, false, false, false, false, false, false, true⟩ b).torque_impulse.y
            = b.torque_impulse.y
              + (match b.shoot.spin with
                | some BallSpin.Left => -b.mass
                | some BallSpin.Right => b.mass
                | none => 0)
          ∧ (keyboardUpdateBall (⟨Real.pi, Real.sqrt, Real.sin, Real.cos⟩ : FloatOps ℝ)
              ⟨false, false, false, false, false, false, false, true⟩ b).torque_impulse.z
            = b.torque_impulse.z := by
  refine ⟨?_, ?_, ?_⟩
  · intro keys b hq he hesc hsp hv
    unfold keyboardUpdateBall
    dsimp only
    rw [if_pos hv]
    simp only [hsp, Bool.false_eq_true, if_false]
    exact adjustShoot_spin_q _ keys b.shoot hq he hesc
  · intro keys b hq he hesc hsp hv
    unfold keyboardUpdateBall
    dsimp only
    rw [if_pos hv]
    simp only [hsp, Bool.false_eq_true, if_false]
    exact adjustShoot_spin_e _ keys b.shoot hq he hesc
  · intro b hv hne h0 h10 ha0 ha
    have hadj : adjustShoot (⟨Real.pi, Real.sqrt, Real.sin, Real.cos⟩ : FloatOps ℝ)
        ⟨false, false, false, false, false, false, false, true⟩ b.shoot = b.shoot :=
      adjustShoot_eval_nokeys _ true b.shoot h0 h10 ha0 ha
    unfold keyboardUpdateBall
    dsimp only
    rw [if_pos hv, hadj, if_pos rfl, if_pos (⟨hv, hne⟩ : _ ∧ _)]
    refine ⟨?_, ?_, rfl⟩ <;>
      (cases hspin : b.shoot.spin with
        | none => simp [hspin]
        | some sp => cases sp <;> simp [hspin])

/-- Witness for C5: toggling the spin of a resting ball and firing with
left spin at mass 2. -/
theorem c5_spin_mechanics_witness :
    (keyboardUpdateBall (⟨Real.pi, Real.sqrt, Real.sin, Real.cos⟩ : FloatOps ℝ)
        ⟨false, false, false, false, true, false, false, false⟩
        ⟨0, 0, 2, ⟨0, 0, 0⟩, ⟨0, 0, 0⟩, ⟨0, 0, 0⟩, ⟨0, 0, none⟩⟩).shoot.spin
      = some BallSpin.Left
      ∧ (keyboardUpdateBall (⟨Real.pi, Real.sqrt, Real.sin, Real.cos⟩ : FloatOps ℝ)
        ⟨false, false, false, false, false, true, false, false⟩
        ⟨0, 0, 2, ⟨0, 0, 0⟩, ⟨0, 0, 0⟩, ⟨0, 0, 0⟩, ⟨0, 0, none⟩⟩).shoot.spin
      = some BallSpin.Right
      ∧ (keyboardUpdateBall (⟨Real.pi, Real.sqrt, Real.sin, Real.cos⟩ : FloatOps ℝ)
        ⟨false, false, false, false, false, false, false, true⟩
        ⟨0, 0, 2, ⟨0, 0, 0⟩, ⟨0, 0, 0⟩, ⟨0, 0, 0⟩, ⟨1, 0, some BallSpin.Left⟩⟩).torque_impulse.x
      = -2 := by
  have hv : Vec3.length (⟨Real.pi, Real.sqrt, Real.sin, Real.cos⟩ : FloatOps ℝ)
      (⟨0, 0, 0⟩ : Vec3 ℝ) < 0.01 := by
    show Real.sqrt (0 * 0 + 0 * 0 + 0 * 0) < 0.01
    rw [show (0 : ℝ) * 0 + 0 * 0 + 0 * 0 = 0 by ring, Real.sqrt_zero]
    norm_num
  refine ⟨?_, ?_, ?_⟩
  · rw [c5_spin_mechanics.1 ⟨false, false, false, false, true, false, false, false⟩
      ⟨0, 0, 2, ⟨0, 0, 0⟩, ⟨0, 0, 0⟩, ⟨0, 0, 0⟩, ⟨0, 0, none⟩⟩ rfl rfl rfl rfl hv]
    rfl
  · rw [c5_spin_mechanics.2.1 ⟨false, false, false, false, false, true, false, false⟩
      ⟨0, 0, 2, ⟨0, 0, 0⟩, ⟨0, 0, 0⟩, ⟨0, 0, 0⟩, ⟨0, 0, none⟩⟩ rfl rfl rfl rfl hv]
    rfl
  · rw [(c5_spin_mechanics.2.2
      ⟨0, 0, 2, ⟨0, 0, 0⟩, ⟨0, 0, 0⟩, ⟨0, 0, 0⟩, ⟨1, 0, some BallSpin.Left⟩⟩ hv
      (by norm_num [ShootSettings.default]) (by norm_num) (by norm_num) le_rfl
      (by positivity)).1]
    norm_num

/-! ## C9: space with default settings jumps instead of firing -/

/-- **C9**: pressing `Space` while the ball is nearly at rest but the
shoot settings equal the default does not fire a shot: if the vertical
velocity magnitude is at most `0.05`, an upward impulse of `7 * mass` is
applied and everything else — hit count and shoot settings included — is
unchanged. -/
theorem c9_space_default_jumps (b : BallControl ℝ)
    (hsd : b.shoot = ShootSettings.default)
    (hv : Vec3.length (⟨Real.pi, Real.sqrt, Real.sin, Real.cos⟩ : FloatOps ℝ) b.linvel < 0.01)
    (hy : |b.linvel.y| ≤ 0.05) :
    keyboardUpdateBall (⟨Real.pi, Real.sqrt, Real.sin, Real.cos⟩ : FloatOps ℝ)
        ⟨false, false, false, false, false, false, false, true⟩ b
      = { b with impulse := ⟨b.impulse.x, b.impulse.y + 7 * b.mass, b.impulse.z⟩ } := by
  have hadj : adjustShoot (⟨Real.pi, Real.sqrt, Real.sin, Real.cos⟩ : FloatOps ℝ)
      ⟨false, false, false, false, false, false, false, true⟩ b.shoot = b.shoot := by
    refine adjustShoot_eval_nokeys _ true b.shoot ?_ ?_ ?_ ?_
    · rw [hsd]
      exact le_rfl
    · rw [hsd]
      show (0 : ℝ) ≤ 10
      norm_num
    · rw [hsd]
      exact le_rfl
    · rw [hsd]
      show (0 : ℝ) < 2 * Real.pi
      positivity
  unfold keyboardUpdateBall
  dsimp only
  rw [if_pos hv, hadj, if_pos rfl, if_neg (fun h => h.2 hsd), if_pos hy]

/-- Witness for C9: a resting ball with default settings and mass 3
receives the upward impulse `21`. -/
theorem c9_space_default_jumps_witness :
    keyboardUpdateBall (⟨Real.pi, Real.sqrt, Real.sin, Real.cos⟩ : FloatOps ℝ)
        ⟨false, false, false, false, false, false, false, true⟩
        ⟨1, 2, 3, ⟨0, 0, 0⟩, ⟨4, 5, 6⟩, ⟨0, 0, 0⟩, ⟨0, 0, none⟩⟩
      = { player_id := 1, hits := 2, mass := 3, linvel := ⟨0, 0, 0⟩,
          impulse := ⟨(4 : ℝ), 5 + 7 * 3, 6⟩, torque_impulse := ⟨0, 0, 0⟩,
          shoot := ⟨0, 0, none⟩ } :=
  c9_space_default_jumps ⟨1, 2, 3, ⟨0, 0, 0⟩, ⟨4, 5, 6⟩, ⟨0, 0, 0⟩, ⟨0, 0, none⟩⟩ rfl
    (by show Real.sqrt (0 * 0 + 0 * 0 + 0 * 0) < 0.01
        rw [show (0 : ℝ) * 0 + 0 * 0 + 0 * 0 = 0 by ring, Real.sqrt_zero]
        norm_num)
    (by show |(0 : ℝ)| ≤ 0.05
        rw [abs_zero]
        norm_num)

/-! ## C3: shooting input is turn-based -/

/-- **C3**: on every frame, keyboard shooting input modifies at most one
ball — the first ball whose `player_id` equals the current player — and
every other ball's components (its `ShootSettings`, impulses and hit
count included) are unchanged: the list keeps its length, every ball of
another player is returned unchanged, any changed entry belongs to the
current player and equals the `keyboardUpdateBall` update of the old
entry, and at most one entry changes. -/
theorem c3_turn_based_input (keys : Keys) (current : ℕ) (balls : List (BallControl ℝ)) :
    (keyboard_input (⟨Real.pi, Real.sqrt, Real.sin, Real.cos⟩ : FloatOps ℝ)
        keys current balls).length = balls.length
      ∧ (∀ (i : ℕ) (bi : BallControl ℝ), balls[i]? = some bi →
          bi.player_id ≠ current →
          (keyboard_input (⟨Real.pi, Real.sqrt, Real.sin, Real.cos⟩ : FloatOps ℝ)
              keys current balls)[i]? = some bi)
      ∧ (∀ (i : ℕ) (bi : BallControl ℝ), balls[i]? = some bi →
          (keyboard_input (⟨Real.pi, Real.sqrt, Real.sin, Real.cos⟩ : FloatOps ℝ)
              keys current balls)[i]? ≠ some bi →
          bi.player_id = current
            ∧ (keyboard_input (⟨Real.pi, Real.sqrt, Real.sin, Real.cos⟩ : FloatOps ℝ)
                keys current balls)[i]?
              = some (keyboardUpdateBall (⟨Real.pi, Real.sqrt, Real.sin, Real.cos⟩ : FloatOps ℝ)
                  keys bi))
      ∧ ∀ (i j : ℕ) (bi bj : BallControl ℝ),
          balls[i]? = some bi →
          (keyboard_input (⟨Real.pi, Real.sqrt, Real.sin, Real.cos⟩ : FloatOps ℝ)
              keys current balls)[i]? ≠ some bi →
          balls[j]? = some bj →
          (keyboard_input (⟨Real.pi, Real.sqrt, Real.sin, Real.cos⟩ : FloatOps ℝ)
              keys current balls)[j]? ≠ some bj →
          i = j := by
  induction balls with
  | nil =>
    refine ⟨rfl, ?_, ?_, ?_⟩
    · intro i bi h
      simp at h
    · intro i bi h
      simp at h
    · intro i j bi bj h1 _ _ _
      simp at h1
  | cons b rest ih =>
    obtain ⟨ihlen, ihpres, ihchg, ihuniq⟩ := ih
    by_cases hb : b.player_id = current
    · have hout : keyboard_input (⟨Real.pi, Real.sqrt, Real.sin, Real.cos⟩ : FloatOps ℝ)
          keys current (b :: rest)
          = keyboardUpdateBall (⟨Real.pi, Real.sqrt, Real.sin, Real.cos⟩ : FloatOps ℝ)
              keys b :: rest := by
        simp only [keyboard_input]
        rw [if_pos hb]
      refine ⟨?_, ?_, ?_, ?_⟩ <;> rw [hout]
      · simp
      · intro i bi hbi hne
        cases i with
        | zero =>
          simp only [List.getElem?_cons_zero, Option.some.injEq] at hbi
          exact absurd (hbi ▸ hb) hne
        | succ k => simpa using hbi
      · intro i bi hbi hne
        cases i with
        | zero =>
          simp only [List.getElem?_cons_zero, Option.some.injEq] at hbi
          subst hbi
          exact ⟨hb, by simp⟩
        | succ k =>
          simp only [List.getElem?_cons_succ] at hbi hne
          exact absurd hbi hne
      · intro i j bi bj h1 h2 h3 h4
        cases i with
        | zero =>
          cases j with
          | zero => rfl
          | succ l =>
            simp only [List.getElem?_cons_succ] at h3 h4
            exact absurd h3 h4
        | succ k =>
          simp only [List.getElem?_cons_succ] at h1 h2
          exact absurd h1 h2
    · have hout : keyboard_input (⟨Real.pi, Real.sqrt, Real.sin, Real.cos⟩ : FloatOps ℝ)
          keys current (b :: rest)
          = b :: keyboard_input (⟨Real.pi, Real.sqrt, Real.sin, Real.cos⟩ : FloatOps ℝ)
              keys current rest := by
        simp only [keyboard_input]
        rw [if_neg hb]
      refine ⟨?_, ?_, ?_, ?_⟩ <;> rw [hout]
      · simp [ihlen]
      · intro i bi hbi hne
        cases i with
        | zero => simpa using hbi
        | succ k =>
          simp only [List.getElem?_cons_succ] at hbi ⊢
          exact ihpres k bi hbi hne
      · intro i bi hbi hne
        cases i with
        | zero =>
          simp only [List.getElem?_cons_zero, Option.some.injEq] at hbi hne
          subst hbi
          exact absurd rfl hne
        | succ k =>
          simp only [List.getElem?_cons_succ] at hbi hne ⊢
          exact ihchg k bi hbi hne
      · intro i j bi bj h1 h2 h3 h4
        cases i with
        | zero =>
          simp only [List.getElem?_cons_zero, Option.some.injEq] at h1 h2
          subst h1
          exact absurd rfl h2
        | succ k =>
          cases j with
          | zero =>
            simp only [List.getElem?_cons_zero, Option.some.injEq] at h3 h4
            subst h3
            exact absurd rfl h4
          | succ l =>
            simp only [List.getElem?_cons_succ] at h1 h2 h3 h4
            exact congrArg Nat.succ (ihuniq k l bi bj h1 h2 h3 h4)

/-- Witness for C3: with two balls and player 0 to move, the ball of
player 1 is returned unchanged. -/
theorem c3_turn_based_input_witness :
    (keyboard_input (⟨Real.pi, Real.sqrt, Real.sin, Real.cos⟩ : FloatOps ℝ)
        ⟨false, false, false, false, false, false, false, false⟩ 0
        [⟨0, 0, 1, ⟨0, 0, 0⟩, ⟨0, 0, 0⟩, ⟨0, 0, 0⟩, ⟨0, 0, none⟩⟩,
         ⟨1, 4, 1, ⟨0, 0, 0⟩, ⟨0, 0, 0⟩, ⟨0, 0, 0⟩, ⟨2, 1, none⟩⟩])[1]?
      = some ⟨1, 4, 1, ⟨0, 0, 0⟩, ⟨0, 0, 0⟩, ⟨0, 0, 0⟩, ⟨2, 1, none⟩⟩ :=
  (c3_turn_based_input ⟨false, false, false, false, false, false, false, false⟩ 0
      [⟨0, 0, 1, ⟨0, 0, 0⟩, ⟨0, 0, 0⟩, ⟨0, 0, 0⟩, ⟨0, 0, none⟩⟩,
       ⟨1, 4, 1, ⟨0, 0, 0⟩, ⟨0, 0, 0⟩, ⟨0, 0, 0⟩, ⟨2, 1, none⟩⟩]).2.1 1
    ⟨1, 4, 1, ⟨0, 0, 0⟩, ⟨0, 0, 0⟩, ⟨0, 0, 0⟩, ⟨2, 1, none⟩⟩ rfl (by norm_num)

/-! ## C6: no error handling in asset loading -/

/-- `optionMapM` yields `none` exactly when the function fails on some
element. -/
theorem optionMapM_eq_none {β γ : Type} (f : β → Option γ) (l : List β) :
    optionMapM f l = none ↔ ∃ x ∈ l, f x = none := by
  induction l with
  | nil => simp [optionMapM]
  | cons x xs ih =>
    cases hf : f x with
    | none =>
      simp only [optionMapM, hf, List.mem_cons]
      exact ⟨fun _ => ⟨x, Or.inl rfl, hf⟩, fun _ => trivial⟩
    | some y =>
      cases hxs : optionMapM f xs with
      | none =>
        simp only [optionMapM, hf, hxs, List.mem_cons]
        refine ⟨fun _ => ?_, fun _ => trivial⟩
        obtain ⟨z, hz1, hz2⟩ := ih.mp hxs
        exact ⟨z, Or.inr hz1, hz2⟩
      | some ys =>
        simp only [optionMapM, hf, hxs, List.mem_cons]
        constructor
        · intro h
          exact absurd h (by simp)
        · rintro ⟨z, hz1, hz2⟩
          rcases hz1 with rfl | hz1
          · rw [hf] at hz2
            exact absurd hz2 (by simp)
          · have h2 := ih.mpr ⟨z, hz1, hz2⟩
            rw [h2] at hxs
            exact absurd hxs (by simp)

/-- **C6**: asset loading performs no error handling. In the model every
`unwrap`ed lookup maps to an `Option` whose `none` is a panic, and
`create_collider_from_gltf_node`, the per-tile spawn, and `load_level`
produce `none` (panic) exactly when the node has no mesh, a `GltfMesh` or
`Mesh` asset is absent, the primitive list is empty, the triangle-mesh
conversion fails, or a primitive has no material — no error value is ever
produced or recovered from in any other way. -/
theorem c6_no_error_handling :
    (∀ (node : GltfNode ℝ) (gm : ℕ → Option GltfMeshA) (ms : ℕ → Option (MeshA ℝ))
        (ig : Bool),
        create_collider_from_gltf_node node gm ms ig = none
          ↔ node.mesh = none
            ∨ ∃ mh, node.mesh = some mh
              ∧ (gm mh = none
                ∨ ∃ gmesh, gm mh = some gmesh
                  ∧ (gmesh.primitives = []
                    ∨ ∃ prim rest2, gmesh.primitives = prim :: rest2
                      ∧ (ms prim.mesh = none
                        ∨ ∃ mesh, ms prim.mesh = some mesh ∧ mesh.trimesh = none))))
      ∧ (∀ (ops : FloatOps ℝ) (gm : ℕ → Option GltfMeshA) (ms : ℕ → Option (MeshA ℝ))
          (models : LaneModels ℝ) (tile : Tile),
          spawnTile ops gm ms models tile = none
            ↔ create_collider_from_gltf_node (models.nodeFor tile.2) gm ms true = none
              ∨ ∃ mh gmesh prim rest2,
                  (models.nodeFor tile.2).mesh = some mh
                    ∧ gm mh = some gmesh
                    ∧ gmesh.primitives = prim :: rest2
                    ∧ prim.material = none)
      ∧ ∀ (ops : FloatOps ℝ) (asset_nodes : String → Option (GltfNode ℝ))
          (gm : ℕ → Option GltfMeshA) (ms : ℕ → Option (MeshA ℝ)) (lanes : List Tile),
          load_level ops asset_nodes gm ms lanes = none
            ↔ asset_nodes "models/lane.gltf#Node0" = none
              ∨ asset_nodes "models/lane.gltf#Node2" = none
              ∨ asset_nodes "models/lane.gltf#Node1" = none
              ∨ ∃ basic hole wall,
                  asset_nodes "models/lane.gltf#Node0" = some basic
                    ∧ asset_nodes "models/lane.gltf#Node2" = some hole
                    ∧ asset_nodes "models/lane.gltf#Node1" = some wall
                    ∧ ∃ tile ∈ lanes, spawnTile ops gm ms ⟨basic, hole, wall⟩ tile = none := by
  refine ⟨?_, ?_, ?_⟩
  · intro node gm ms ig
    cases hm : node.mesh with
    | none => simp [create_collider_from_gltf_node, hm]
    | some mh =>
      cases hg : gm mh with
      | none => simp [create_collider_from_gltf_node, hm, hg]
      | some gmesh =>
        cases hp : gmesh.primitives with
        | nil => simp [create_collider_from_gltf_node, hm, hg, hp]
        | cons prim rest2 =>
          cases hms : ms prim.mesh with
          | none => simp [create_collider_from_gltf_node, hm, hg, hp, hms]
          | some mesh =>
            cases ht : mesh.trimesh with
            | none => simp [create_collider_from_gltf_node, hm, hg, hp, hms, ht]
            | some verts => simp [create_collider_from_gltf_node, hm, hg, hp, hms, ht]
  · intro ops gm ms models tile
    cases hm : (models.nodeFor tile.2).mesh with
    | none =>
      simp [spawnTile, create_collider_from_gltf_node, hm]
    | some mh =>
      cases hg : gm mh with
      | none => simp [spawnTile, create_collider_from_gltf_node, hm, hg]
      | some gmesh =>
        cases hcol : create_collider_from_gltf_node (models.nodeFor tile.2) gm ms true with
        | none => simp [spawnTile, hm, hg, hcol]
        | some verts =>
          cases hp : gmesh.primitives with
          | nil =>
            exact absurd hcol (by simp [create_collider_from_gltf_node, hm, hg, hp])
          | cons prim rest2 =>
            cases hmat : prim.material with
            | none => simp [spawnTile, hm, hg, hcol, hp, hmat]
            | some mat => simp [spawnTile, hm, hg, hcol, hp, hmat]
  · intro ops asset_nodes gm ms lanes
    cases h0 : asset_nodes "models/lane.gltf#Node0" with
    | none => simp [load_level, h0]
    | some basic =>
      cases h2 : asset_nodes "models/lane.gltf#Node2" with
      | none => simp [load_level, h0, h2]
      | some hole =>
        cases h1 : asset_nodes "models/lane.gltf#Node1" with
        | none => simp [load_level, h0, h1, h2]
        | some wall =>
          cases hmm : optionMapM (spawnTile ops gm ms ⟨basic, hole, wall⟩) lanes with
          | none =>
            obtain ⟨⟨⟨a, b⟩, c⟩, hmem, hsp⟩ := (optionMapM_eq_none _ lanes).mp hmm
            simp [load_level, h0, h1, h2, hmm]
            exact ⟨a, b, c, hmem, hsp⟩
          | some tiles =>
            have hnex : ¬∃ x ∈ lanes, spawnTile ops gm ms ⟨basic, hole, wall⟩ x = none := by
              intro hex
              rw [(optionMapM_eq_none _ lanes).mpr hex] at hmm
              exact absurd hmm (by simp)
            simp [load_level, h0, h1, h2, hmm]
            intro a b c hmem hsp
            exact hnex ⟨((a, b), c), hmem, hsp⟩

/-- Witness for C6: a node without a mesh makes the collider construction
panic. -/
theorem c6_no_error_handling_witness :
    create_collider_from_gltf_node
        (⟨none, ⟨⟨0, 0, 0⟩, ⟨0, 0, 0, 1⟩, ⟨1, 1, 1⟩⟩⟩ : GltfNode ℝ)
        (fun _ => none) (fun _ => none) false = none :=
  (c6_no_error_handling.1 _ _ _ false).mpr (Or.inl rfl)

end Golf
